import Mathlib

/-!
Shallow embedding of the `mint` record layer (`record-layer.go`) and proofs
about it.  Bytes are modelled as `Nat` values kept below 256, byte strings as
`List Nat`.  Go's `uint64`/`uint16` arithmetic is modelled with explicit
`% 2 ^ w` where wrapping matters.  A Go runtime panic (out-of-range index,
sequence-number wraparound, nil dereference) is modelled as a distinguished
`fatal` outcome; Go `error` returns are modelled as `err` outcomes.

The mutex, the diagnostic label, logging calls, and the unused
`DiscardReadKey` operation are omitted: no proved statement depends on them.
Go pointer aliasing between `DefaultRecordLayer.cipher` and the entries of
`readCiphers` is modelled with an explicit heap: `ciphers` is the list of all
allocated cipher states and both `cipherId` and the `readCiphers` map hold
indices into it.
-/

/- ### Constants (record-layer.go lines 10-17) -/

def sequenceNumberLen : Nat := 8

def recordHeaderLenTLS : Nat := 5

def recordHeaderLenDTLS : Nat := 13

def maxFragmentLen : Nat := 1 <<< 14

/-- Modelled from the spec: the TLS 1.0 wire version constant `tls10Version`
(referenced by `NewRecordLayerTLS`) is declared outside `src/`; the standard
wire value is 0x0301. -/
def tls10Version : Nat := 0x0301

/-- Modelled from the spec: the `RecordType` constants are declared outside
`src/`.  The spec enumerates {Alert, Handshake, ApplicationData, Ack}; the
values used here are the standard TLS code points.  The proofs only rely on
the constants being nonzero, pairwise distinct and below 256. -/
def RecordTypeAlert : Nat := 21

def RecordTypeHandshake : Nat := 22

def RecordTypeApplicationData : Nat := 23

def RecordTypeAck : Nat := 25

/- ### Byte-string helpers -/

/-- Big-endian byte encoding of `s` into `n` bytes (low `8 * n` bits of `s`).
Modelled from the spec: `encodeUint` (declared outside `src/`) writes an
integer big-endian into a fixed number of bytes. -/
def beBytes : Nat → Nat → List Nat
  | 0, _ => []
  | n + 1, s => beBytes n (s / 256) ++ [s % 256]

/-- Big-endian value of a byte string. -/
def beVal (l : List Nat) : Nat := l.foldl (fun a b => a * 256 + b) 0

/-- Modelled from the spec: `decodeUint` (declared outside `src/`) reads
`size` big-endian bytes as an unsigned integer. -/
def decodeUint (data : List Nat) (size : Nat) : Nat := beVal (data.take size)

/-- Modelled from the spec: `dtlsConvertVersion` (declared outside `src/`)
maps the configured version to the DTLS wire encoding.  The spec does not
specify the mapping; it is modelled as the identity.  No settled claim
depends on its value. -/
def dtlsConvertVersion (v : Nat) : Nat := v

/- ### AEAD interface (Go `crypto/cipher.AEAD`) -/

/-- A concrete AEAD primitive: `Seal nonce plaintext aad` returns the
ciphertext (plaintext plus `overhead` tag bytes); `Open nonce ciphertext aad` authenticates and decrypts. -/
structure AEAD where
  overhead : Nat
  Seal : List Nat → List Nat → List Nat → List Nat
  Open : List Nat → List Nat → List Nat → Option (List Nat)

/-- The contract every well-formed AEAD satisfies: sealing expands by exactly
`overhead` bytes, opening a sealed message succeeds and returns the
plaintext, and any successful open shrinks by exactly `overhead` bytes. -/
structure AEADGood (a : AEAD) : Prop where
  seal_length : ∀ nonce pt aad, (a.Seal nonce pt aad).length = pt.length + a.overhead
  open_seal : ∀ nonce pt aad, a.Open nonce (a.Seal nonce pt aad) aad = some pt
  open_length : ∀ nonce ct aad pt, a.Open nonce ct aad = some pt → pt.length + a.overhead = ct.length

/-- Keyed checksum used by the executable toy AEAD below. -/
def toyTag (k : Nat) (nonce pt aad : List Nat) : Nat :=
  (k + nonce.sum + pt.sum + aad.sum) % 256

/-- A small executable AEAD (one checksum tag byte) used to run the embedded
record layer on concrete inputs. -/
def toyAead (k : Nat) : AEAD where
  overhead := 1
  Seal := fun nonce pt aad => pt ++ [toyTag k nonce pt aad]
  Open := fun nonce ct aad =>
    if ct.getLast? = some (toyTag k nonce ct.dropLast aad) then some ct.dropLast else none

/- ### Cipher state (record-layer.go lines 59-65, 125-136, 202-242) -/

structure cipherState where
  epoch : Nat
  ivLength : Nat
  seq : Nat
  iv : List Nat
  cipher : Option AEAD

/-- `newCipherStateNull` (line 125): epoch clear, no AEAD. -/
def newCipherStateNull : cipherState :=
  { epoch := 0, ivLength := 0, seq := 0, iv := [], cipher := none }

/-- `cipherState.combineSeq` (lines 202-208).  `c.seq` is a Go `uint64` and
`c.epoch` a Go `uint16`, hence the reductions. -/
def cipherState.combineSeq (c : cipherState) (datagram : Bool) : Nat :=
  if datagram then (c.seq % (1 <<< 64)) ||| ((c.epoch % (1 <<< 16)) <<< 48) else c.seq

/-- The `computeNonce` loop (lines 216-220): `i` is the Go loop variable and
the last argument counts the remaining iterations (the loop runs for
`i = 0, ..., 7`); iteration `i` XORs the next low byte of `s` into position
`len - i - 1`. -/
def nonceLoopGo : List Nat → Nat → Nat → Nat → List Nat
  | nonce, _, _, 0 => nonce
  | nonce, s, i, k + 1 =>
    nonceLoopGo
      (nonce.set (nonce.length - i - 1) ((nonce.getD (nonce.length - i - 1) 0) ^^^ (s % 256)))
      (s / 256) (i + 1) k

/-- `cipherState.computeNonce` (lines 210-224): copy the IV, then XOR the low
8 bytes of `seq` (big-endian) into its last 8 bytes.  (If `len(iv) < 8` the
Go code would panic; every cipher state built by the claims has a 12-byte
IV.) -/
def cipherState.computeNonce (c : cipherState) (seq : Nat) : List Nat :=
  nonceLoopGo c.iv seq 0 8

/-- `cipherState.incrementSequenceNumber` (lines 226-235).  The Go code
panics ("TLS: sequence number wraparound") instead of wrapping; the panic is
modelled as `none`. -/
def cipherState.incrementSequenceNumber (c : cipherState) : Option cipherState :=
  if c.seq ≥ (1 <<< 48) - 1 then none else some { c with seq := c.seq + 1 }

/-- `cipherState.overhead` (lines 237-242). -/
def cipherState.overhead (c : cipherState) : Nat :=
  match c.cipher with
  | none => 0
  | some a => a.overhead

/- ### Frame assembly (record-layer.go lines 106-123, plus spec section 6.1) -/

structure recordLayerFrameDetails where
  datagram : Bool

/-- `recordLayerFrameDetails.headerLen` (lines 110-115). -/
def recordLayerFrameDetails.headerLen (d : recordLayerFrameDetails) : Nat :=
  if d.datagram then recordHeaderLenDTLS else recordHeaderLenTLS

/-- `recordLayerFrameDetails.frameLen` (lines 121-123). -/
def recordLayerFrameDetails.frameLen (d : recordLayerFrameDetails) (hdr : List Nat) : Nat :=
  ((hdr.getD (d.headerLen - 2) 0) <<< 8) ||| hdr.getD (d.headerLen - 1) 0

/-- Modelled from the spec: the buffered frame reader (`frameReader`, spec
section 6.1) is declared outside `src/`.  It accumulates raw transport bytes
and carves complete `(header, body)` pairs using the frame details'
header length and length field. -/
structure frameReader where
  details : recordLayerFrameDetails
  buffer : List Nat

/-- Modelled from the spec: a fresh frame reader holds no buffered bytes. -/
def newFrameReader (d : recordLayerFrameDetails) : frameReader :=
  { details := d, buffer := [] }

/-- Modelled from the spec: `bytes_needed` — 0 exactly when a complete record
can be assembled from the buffered input. -/
def frameReader.needed (f : frameReader) : Nat :=
  let hl := f.details.headerLen
  if f.buffer.length < hl then hl - f.buffer.length
  else hl + f.details.frameLen f.buffer - f.buffer.length

/-- Modelled from the spec: `add_chunk` appends raw transport bytes (Go
`[]byte`, hence each value is a byte). -/
def frameReader.addChunk (f : frameReader) (c : List Nat) : frameReader :=
  { f with buffer := f.buffer ++ c.map (· % 256) }

/-- Modelled from the spec: `try_assemble` carves one complete record's
header and body out of the buffered input, or reports would-block (`none`). -/
def frameReader.process (f : frameReader) : Option ((List Nat × List Nat) × frameReader) :=
  let hl := f.details.headerLen
  if f.buffer.length < hl then none
  else
    let flen := f.details.frameLen f.buffer
    if f.buffer.length < hl + flen then none
    else
      some ((f.buffer.take hl, (f.buffer.drop hl).take flen),
            { f with buffer := f.buffer.drop (hl + flen) })

/- ### Errors and outcomes -/

/-- The read-path error taxonomy: `wouldBlock` is `AlertWouldBlock`,
`formatError` a `fmt.Errorf` header error, `decryptError` a `DecryptError`,
`transportError` an error propagated from `conn.Read`. -/
inductive RError where
  | wouldBlock : RError
  | formatError : String → RError
  | decryptError : String → RError
  | transportError : String → RError
deriving DecidableEq

/- ### Plaintext records (record-layer.go lines 38-57) -/

structure TLSPlaintext where
  contentType : Nat
  epoch : Nat
  seq : Nat
  fragment : List Nat
deriving DecidableEq

/-- Result of one read-path call: a record, a Go `error`, or a Go runtime
panic (`fatal`). -/
inductive ROutcome where
  | ok : TLSPlaintext → ROutcome
  | err : RError → ROutcome
  | fatal : String → ROutcome
deriving DecidableEq

/- ### Association-list model of the Go `map[Epoch]*cipherState` -/

/-- Lookup in the epoch map (values are heap indices). -/
def mapLookup : List (Nat × Nat) → Nat → Option Nat
  | [], _ => none
  | (k, v) :: rest, k' => if k = k' then some v else mapLookup rest k'

/-- Insertion/overwrite in the epoch map, Go map-assignment semantics. -/
def mapInsert : List (Nat × Nat) → Nat → Nat → List (Nat × Nat)
  | [], k, v => [(k, v)]
  | (k0, v0) :: rest, k, v =>
    if k0 = k then (k, v) :: rest else (k0, v0) :: mapInsert rest k v

/- ### Record layer state (record-layer.go lines 85-100) -/

inductive Direction where
  | write : Direction
  | read : Direction
deriving DecidableEq

/-- The `DefaultRecordLayer` state.  `connRead` is the receive side of the
`io.ReadWriter` (each element one `conn.Read` result: a chunk of bytes or a
transport error); `written` is the transmit side (each element one
`conn.Write` payload).  `ciphers` is the heap of all allocated
`cipherState`s; `cipherId` plays the role of the `cipher` pointer and
`readCiphers` maps epochs to heap indices. -/
structure DefaultRecordLayer where
  direction : Direction
  version : Nat
  connRead : List (Except String (List Nat))
  written : List (List Nat)
  frame : frameReader
  cachedRecord : Option TLSPlaintext
  cachedError : Option RError
  ciphers : List cipherState
  cipherId : Nat
  readCiphers : List (Nat × Nat)
  datagram : Bool

/-- Dereference the `cipher` pointer (`r.cipher`). -/
def DefaultRecordLayer.currentCipher (r : DefaultRecordLayer) : cipherState :=
  r.ciphers.getD r.cipherId newCipherStateNull

/-- `NewRecordLayerTLS` (lines 138-147). -/
def NewRecordLayerTLS (connRead : List (Except String (List Nat))) (dir : Direction) :
    DefaultRecordLayer :=
  { direction := dir
    version := tls10Version
    connRead := connRead
    written := []
    frame := newFrameReader { datagram := false }
    cachedRecord := none
    cachedError := none
    ciphers := [newCipherStateNull]
    cipherId := 0
    readCiphers := []
    datagram := false }

/-- `NewRecordLayerDTLS` (lines 149-160): additionally registers the null
cipher state as the epoch-0 read cipher. -/
def NewRecordLayerDTLS (connRead : List (Except String (List Nat))) (dir : Direction) :
    DefaultRecordLayer :=
  { direction := dir
    version := tls10Version
    connRead := connRead
    written := []
    frame := newFrameReader { datagram := true }
    cachedRecord := none
    cachedError := none
    ciphers := [newCipherStateNull]
    cipherId := 0
    readCiphers := [(0, 0)]
    datagram := true }

/-- `DefaultRecordLayer.SetVersion` (lines 162-164). -/
def DefaultRecordLayer.SetVersion (r : DefaultRecordLayer) (v : Nat) : DefaultRecordLayer :=
  { r with version := v }

/-- `DefaultRecordLayer.ResetClear` (lines 166-169): re-arms a fresh null
cipher (a new allocation; the epoch map is not updated). -/
def DefaultRecordLayer.ResetClear (r : DefaultRecordLayer) (seq : Nat) : DefaultRecordLayer :=
  { r with ciphers := r.ciphers ++ [{ newCipherStateNull with seq := seq }]
           cipherId := r.ciphers.length }

/-- `DefaultRecordLayer.Epoch` (lines 171-173). -/
def DefaultRecordLayer.Epoch (r : DefaultRecordLayer) : Nat := r.currentCipher.epoch

/-- The `AEADFactory` contract (spec section 6.2): builds an AEAD instance
from key bytes, or fails. -/
def AEADFactory : Type := List Nat → Except String AEAD

/-- The key/IV bundle of a rekey event.  The Go `KeySet` carries byte strings
addressable by the labels "key" and "iv" (`labelForKey` / `labelForIV`);
they are modelled as two fields. -/
structure KeySet where
  key : List Nat
  iv : List Nat

/-- `newCipherStateAead` (lines 129-136). -/
def newCipherStateAead (epoch : Nat) (factory : AEADFactory) (key iv : List Nat) :
    Except String cipherState :=
  match factory key with
  | .error e => .error e
  | .ok cipher => .ok { epoch := epoch, ivLength := iv.length, seq := 0, iv := iv, cipher := some cipher }

/-- `DefaultRecordLayer.Rekey` (lines 179-189): installs a freshly allocated
cipher state as the current cipher and, for datagram read layers, also
registers it in the epoch map (same allocation, hence the shared heap
index). -/
def DefaultRecordLayer.Rekey (r : DefaultRecordLayer) (epoch : Nat) (factory : AEADFactory)
    (keys : KeySet) : Except String DefaultRecordLayer :=
  match newCipherStateAead epoch factory keys.key keys.iv with
  | .error e => .error e
  | .ok cipher =>
    .ok { r with
          ciphers := r.ciphers ++ [cipher]
          cipherId := r.ciphers.length
          readCiphers :=
            if r.datagram ∧ r.direction = Direction.read then
              mapInsert r.readCiphers epoch r.ciphers.length
            else r.readCiphers }

/-- Unwraps a `Rekey` result, keeping the old state on error.  Test
scaffolding for running the layer on concrete inputs (the factories used
below never fail). -/
def orKeep (r : DefaultRecordLayer) : Except String DefaultRecordLayer → DefaultRecordLayer
  | .ok r2 => r2
  | .error _ => r

/- ### Record codec (record-layer.go lines 244-299) -/

/-- `DefaultRecordLayer.encrypt` (lines 244-263): the plaintext buffer is the
fragment, then the content-type byte, then `padLen` zero bytes; it is sealed
in place under `cipher`'s AEAD.  (The `encrypt` caller has checked that the
cipher is non-nil; a nil cipher would be a Go nil dereference.) -/
def DefaultRecordLayer.encrypt (cipher : cipherState) (seq : Nat) (header : List Nat)
    (pt : TLSPlaintext) (padLen : Nat) : List Nat :=
  match cipher.cipher with
  | none => []
  | some a =>
    a.Seal (cipher.computeNonce seq)
      (pt.fragment ++ (pt.contentType % 256) :: List.replicate padLen 0) header

/-- Result of the decrypt transform: a record plus the stripped padding
length, a `DecryptError`, or a Go runtime panic. -/
inductive DecResult where
  | ok : TLSPlaintext → Nat → DecResult
  | err : String → DecResult
  | fatal : String → DecResult
deriving DecidableEq

/-- The padding-boundary scan (line 288):
`for ; padLen < decryptLen+1 && out.fragment[decryptLen-padLen-1] == 0; padLen++`.
When `padLen` reaches `decryptLen` the first conjunct still holds and the Go
code indexes `fragment[-1]`: a runtime out-of-range panic, modelled as
`none`. -/
def padScanGo : List Nat → Nat → Nat → Nat → Option Nat
  | _, _, padLen, 0 => some padLen
  | frag, decryptLen, padLen, fuel + 1 =>
    if decryptLen < padLen + 1 then none
    else if frag.getD (decryptLen - padLen - 1) 0 = 0 then
      padScanGo frag decryptLen (padLen + 1) fuel
    else some padLen

/-- The scan itself: the loop guard `padLen < decryptLen + 1` is represented
by the fuel value `decryptLen + 1 - padLen` (zero exactly when the guard
fails, in which case the loop exits returning `padLen`); the fuel drops by
one as `padLen` rises by one, so the two formulations coincide on every
input. -/
def padScanLoop (frag : List Nat) (decryptLen : Nat) (padLen : Nat) : Option Nat :=
  padScanGo frag decryptLen padLen (decryptLen + 1 - padLen)

/-- `DefaultRecordLayer.decrypt` (lines 265-299).  Note that it uses the
layer's current cipher `r.cipher` throughout (overhead, nonce, AEAD), not a
caller-selected cipher state.  The `out.fragment` buffer has length
`decryptLen`; `Open` writes the recovered plaintext into it in place. -/
def DefaultRecordLayer.decrypt (r : DefaultRecordLayer) (seq : Nat) (header : List Nat)
    (pt : TLSPlaintext) : DecResult :=
  let cs := r.currentCipher
  if pt.fragment.length < cs.overhead then
    .err "tls.record.decrypt: Record too short"
  else
    let decryptLen := pt.fragment.length - cs.overhead
    match cs.cipher with
    | none => .fatal "runtime error: invalid memory address or nil pointer dereference"
    | some a =>
      match a.Open (cs.computeNonce seq) pt.fragment header with
      | none => .err "tls.record.decrypt: AEAD decrypt failed"
      | some plain =>
        let fragment := plain.take decryptLen ++ List.replicate (decryptLen - plain.length) 0
        match padScanLoop fragment decryptLen 0 with
        | none => .fatal "runtime error: index out of range"
        | some padLen =>
          let newLen := decryptLen - padLen - 1
          .ok { contentType := fragment.getD newLen 0
                epoch := 0
                seq := seq
                fragment := fragment.take newLen } padLen

/- ### Read path (record-layer.go lines 301-451) -/

/-- The frame-filling loop of `nextRecord` (lines 354-379): while no complete
record is assembled, pull one `conn.Read` result and feed it to the frame
reader.  A transport error propagates; an exhausted or empty read is
would-block (the Go code treats `n == 0` as `AlertWouldBlock`).  The Go loop
calls `process` after every chunk; re-checking `needed` on the recursive
call is observationally the same because `needed > 0` exactly when `process`
would report would-block. -/
def readLoop (fr : frameReader) (conn : List (Except String (List Nat))) :
    Except RError (List Nat × List Nat) × frameReader × List (Except String (List Nat)) :=
  if fr.needed > 0 then
    match conn with
    | [] => (.error .wouldBlock, fr, [])
    | .error e :: rest => (.error (.transportError e), fr, rest)
    | .ok chunk :: rest =>
      if chunk.length = 0 then (.error .wouldBlock, fr, rest)
      else readLoop (fr.addChunk chunk) rest
  else
    match fr.process with
    | some (hb, fr2) => (.ok hb, fr2, conn)
    | none => (.error .wouldBlock, fr, conn)

/-- The tail of `nextRecord` (lines 431-450) once the cipher state `selId`
and the decryption sequence number have been selected: decrypt if a cipher
is active, enforce the plaintext size bound, cache the record, and advance
the selected cipher state's sequence counter (a panic if it is at its
maximum; note the Go code caches the record before incrementing). -/
def DefaultRecordLayer.finishRecord (r : DefaultRecordLayer) (selId : Nat) (seq : Nat)
    (htype : Nat) (fragment : List Nat) (header : List Nat) : ROutcome × DefaultRecordLayer :=
  let sel := r.ciphers.getD selId newCipherStateNull
  let decoded : Except (ROutcome × DefaultRecordLayer) TLSPlaintext :=
    if sel.cipher.isSome then
      match DefaultRecordLayer.decrypt r seq header
          { contentType := htype, epoch := 0, seq := 0, fragment := fragment } with
      | .fatal msg => .error (.fatal msg, r)
      | .err msg => .error (.err (.decryptError msg), r)
      | .ok pt _ => .ok { pt with epoch := sel.epoch }
    else
      .ok { contentType := htype, epoch := sel.epoch, seq := 0, fragment := fragment }
  match decoded with
  | .error out => out
  | .ok pt =>
    if pt.fragment.length > maxFragmentLen then
      (.err (.formatError "tls.record: Plaintext size too big"), r)
    else
      let r2 := { r with cachedRecord := some pt }
      match sel.incrementSequenceNumber with
      | none => (.fatal "TLS: sequence number wraparound", r2)
      | some sel2 => (.ok pt, { r2 with ciphers := r2.ciphers.set selId sel2 })

/-- `DefaultRecordLayer.nextRecord` (lines 337-451).  `awvn` models the
package-level `allowWrongVersionNumber` flag, which is declared outside
`src/` ("unless version checking is explicitly disabled" in the spec).
Returns the cached record if one is present; otherwise assembles a frame,
validates the header (content type, version bytes, size bound), selects the
cipher state (datagram mode: by the wire epoch, rejecting unknown epochs and
— unless `allowOldEpoch` — non-current epochs with would-block), and hands
off to `finishRecord`. -/
def DefaultRecordLayer.nextRecord (awvn : Bool) (r : DefaultRecordLayer) (allowOldEpoch : Bool) :
    ROutcome × DefaultRecordLayer :=
  match r.cachedRecord with
  | some pt =>
    (match r.cachedError with
     | some e => .err e
     | none => .ok pt, r)
  | none =>
    match readLoop r.frame r.connRead with
    | (res, fr2, conn2) =>
      let r1 := { r with frame := fr2, connRead := conn2 }
      match res with
      | .error e => (.err e, r1)
      | .ok (header, body) =>
        let htype := header.getD 0 0
        if ¬(htype = RecordTypeAlert ∨ htype = RecordTypeHandshake ∨
             htype = RecordTypeApplicationData ∨ htype = RecordTypeAck) then
          (.err (.formatError "tls.record: Unknown content type"), r1)
        else if ¬awvn ∧ ¬(header.getD 1 0 = 0x03 ∧ header.getD 2 0 = 0x01) then
          (.err (.formatError "tls.record: Invalid version"), r1)
        else
          let size := ((header.getD (header.length - 2) 0) <<< 8) + header.getD (header.length - 1) 0
          if size > maxFragmentLen + 256 then
            (.err (.formatError "tls.record: Ciphertext size too big"), r1)
          else
            let fragment := body.take size ++ List.replicate (size - body.length) 0
            if r1.datagram then
              let seqWire := decodeUint (header.drop 3) 8
              let epoch := seqWire >>> 48
              match mapLookup r1.readCiphers epoch with
              | none => (.err .wouldBlock, r1)
              | some cid =>
                if epoch ≠ r1.currentCipher.epoch ∧ ¬allowOldEpoch then
                  (.err .wouldBlock, r1)
                else
                  let selId := if epoch ≠ r1.currentCipher.epoch then cid else r1.cipherId
                  r1.finishRecord selId seqWire htype fragment header
            else
              r1.finishRecord r1.cipherId r1.currentCipher.seq htype fragment header

/-- Outcome of `PeekRecordType`: a content type, an error, or a panic. -/
inductive PeekOutcome where
  | ok : Nat → PeekOutcome
  | err : RError → PeekOutcome
  | fatal : String → PeekOutcome
deriving DecidableEq

/-- `DefaultRecordLayer.PeekRecordType` (lines 301-315), non-blocking form:
one `nextRecord(false)` attempt, leaving the peek cache in place.  (With
`block = true` the Go code merely retries the same attempt while it returns
would-block.) -/
def DefaultRecordLayer.PeekRecordType (awvn : Bool) (r : DefaultRecordLayer) :
    PeekOutcome × DefaultRecordLayer :=
  match DefaultRecordLayer.nextRecord awvn r false with
  | (.ok pt, r2) => (.ok pt.contentType, r2)
  | (.err e, r2) => (.err e, r2)
  | (.fatal msg, r2) => (.fatal msg, r2)

/-- `DefaultRecordLayer.ReadRecord` (lines 317-325): one current-epoch
`nextRecord` attempt, consuming the peek cache. -/
def DefaultRecordLayer.ReadRecord (awvn : Bool) (r : DefaultRecordLayer) :
    ROutcome × DefaultRecordLayer :=
  match DefaultRecordLayer.nextRecord awvn r false with
  | (res, r2) => (res, { r2 with cachedRecord := none, cachedError := none })

/-- `DefaultRecordLayer.ReadRecordAnyEpoch` (lines 327-335): like
`ReadRecord` but accepting records from any epoch still in the read map. -/
def DefaultRecordLayer.ReadRecordAnyEpoch (awvn : Bool) (r : DefaultRecordLayer) :
    ROutcome × DefaultRecordLayer :=
  match DefaultRecordLayer.nextRecord awvn r true with
  | (res, r2) => (res, { r2 with cachedRecord := none, cachedError := none })

/- ### Write path (record-layer.go lines 453-509) -/

/-- Outcome of a write: success, a Go `error`, or a panic. -/
inductive WResult where
  | ok : WResult
  | err : String → WResult
  | fatal : String → WResult
deriving DecidableEq

/-- `DefaultRecordLayer.writeRecordWithPadding` (lines 461-509) for the
cipher argument `r.cipher`, which is what both Go callers pass.  Builds the
wire header (5-byte stream form or 13-byte datagram form), encrypts if a
cipher is active (padding on a cleartext record is an error), enforces the
record size bound, advances the write sequence counter and appends
`header ++ ciphertext` to the transport.  `conn.Write` itself is modelled as
infallible. -/
def DefaultRecordLayer.writeRecordWithPadding (r : DefaultRecordLayer) (pt : TLSPlaintext)
    (padLen : Nat) : WResult × DefaultRecordLayer :=
  let cipher := r.currentCipher
  let seq := cipher.combineSeq r.datagram
  let length :=
    if cipher.cipher.isSome then pt.fragment.length + 1 + padLen + cipher.overhead
    else pt.fragment.length
  let contentType :=
    if cipher.cipher.isSome then RecordTypeApplicationData else pt.contentType
  let header :=
    if ¬r.datagram then
      [contentType % 256, (r.version >>> 8) % 256, r.version % 256,
       (length >>> 8) % 256, length % 256]
    else
      let version := dtlsConvertVersion r.version
      [contentType % 256, (version >>> 8) % 256, version % 256] ++
        beBytes 8 seq ++ beBytes 2 length
  let ciphertextRes : Except (WResult × DefaultRecordLayer) (List Nat) :=
    if cipher.cipher.isSome then
      .ok (DefaultRecordLayer.encrypt cipher seq header pt padLen)
    else
      if padLen > 0 then
        .error (.err "tls.record: Padding can only be done on encrypted records", r)
      else .ok pt.fragment
  match ciphertextRes with
  | .error out => out
  | .ok ciphertext =>
    if ciphertext.length > maxFragmentLen then
      (.err "tls.record: Record size too big", r)
    else
      match cipher.incrementSequenceNumber with
      | none => (.fatal "TLS: sequence number wraparound", r)
      | some cipher2 =>
        (.ok, { r with
                ciphers := r.ciphers.set r.cipherId cipher2
                written := r.written ++ [header ++ ciphertext] })

/-- `DefaultRecordLayer.WriteRecord` (lines 453-455). -/
def DefaultRecordLayer.WriteRecord (r : DefaultRecordLayer) (pt : TLSPlaintext) :
    WResult × DefaultRecordLayer :=
  r.writeRecordWithPadding pt 0

/-- `DefaultRecordLayer.WriteRecordWithPadding` (lines 457-459). -/
def DefaultRecordLayer.WriteRecordWithPadding (r : DefaultRecordLayer) (pt : TLSPlaintext)
    (padLen : Nat) : WResult × DefaultRecordLayer :=
  r.writeRecordWithPadding pt padLen

/- ### Concrete states for running the embedded layer -/

/-- A factory producing the toy AEAD with key `k` (ignores the key bytes). -/
def toyFactory (k : Nat) : AEADFactory := fun _ => .ok (toyAead k)

/-- A key/IV bundle with the 12-byte all-zero IV. -/
def toyKeys : KeySet := { key := [0], iv := List.replicate 12 0 }

/-- Read layer holding the toy AEAD with key 7 as the current cipher. -/
def c1Layer : DefaultRecordLayer :=
  orKeep (NewRecordLayerTLS [] Direction.read)
    ((NewRecordLayerTLS [] Direction.read).Rekey 1 (toyFactory 7) toyKeys)

/-- A ciphertext whose decryption under `c1Layer`'s cipher is `[0, 0, 0]`:
an entirely-zero payload. -/
def c1Ciphertext : List Nat :=
  (toyAead 7).Seal (c1Layer.currentCipher.computeNonce 0) [0, 0, 0] [23, 3, 1, 0, 4]

/-- Datagram write layer keyed for epoch 1 (toy key 1). -/
def c2Writer : DefaultRecordLayer :=
  orKeep (NewRecordLayerDTLS [] Direction.write)
    ((NewRecordLayerDTLS [] Direction.write).Rekey 1 (toyFactory 1) toyKeys)

/-- The record carried by the epoch-1 datagram. -/
def c2Record : TLSPlaintext :=
  { contentType := RecordTypeHandshake, epoch := 1, seq := 0, fragment := [104, 105] }

/-- The epoch-1 datagram as written to the wire. -/
def c2Wire : List Nat := ((c2Writer.writeRecordWithPadding c2Record 0).2).written.getD 0 []

/-- Datagram read layer that has advanced to epoch 2 (toy key 2) while
keeping the epoch-1 cipher (toy key 1) in its read map, with the epoch-1
datagram pending on the transport. -/
def c2Reader : DefaultRecordLayer :=
  let r0 := NewRecordLayerDTLS [Except.ok c2Wire] Direction.read
  let r1 := orKeep r0 (r0.Rekey 1 (toyFactory 1) toyKeys)
  orKeep r1 (r1.Rekey 2 (toyFactory 2) toyKeys)

/-- The same read layer still at epoch 1: decrypting the pending datagram
with the epoch-1 cipher state succeeds, showing the datagram itself is
well-formed. -/
def c2ReaderEpoch1 : DefaultRecordLayer :=
  let r0 := NewRecordLayerDTLS [Except.ok c2Wire] Direction.read
  orKeep r0 (r0.Rekey 1 (toyFactory 1) toyKeys)

/-- Stream read layer with configured version `v` and one pending cleartext
handshake record whose header version bytes are `(b1, b2)`. -/
def c5LayerOf (v b1 b2 : Nat) : DefaultRecordLayer :=
  (NewRecordLayerTLS [Except.ok [22, b1, b2, 0, 1, 99]] Direction.read).SetVersion v

/-- Stream read layer with one pending cleartext handshake record. -/
def c8Layer : DefaultRecordLayer :=
  NewRecordLayerTLS [Except.ok [22, 3, 1, 0, 1, 99]] Direction.read

/-- Stream write layer with an active toy AEAD (key 5). -/
def c7EncLayer : DefaultRecordLayer :=
  orKeep (NewRecordLayerTLS [] Direction.write)
    ((NewRecordLayerTLS [] Direction.write).Rekey 1 (toyFactory 5) toyKeys)

/-- Stream write layer with no cipher (cleartext). -/
def c9Layer : DefaultRecordLayer := NewRecordLayerTLS [] Direction.write

/-- A handshake record used on the write path. -/
def c7Record : TLSPlaintext :=
  { contentType := RecordTypeHandshake, epoch := 0, seq := 0, fragment := [1, 2, 3] }

/-- A cipher state mid-way through its sequence space. -/
def c4Cs : cipherState := { epoch := 0, ivLength := 0, seq := 5, iv := [], cipher := none }

/-- A cipher state at the sequence-number limit. -/
def c4CsMax : cipherState := { newCipherStateNull with seq := (1 <<< 48) - 1 }

/-- A cipher state with the 12-byte all-zero IV. -/
def c6Cs : cipherState :=
  { epoch := 0, ivLength := 12, seq := 0, iv := List.replicate 12 0, cipher := none }

/-- Read layer holding the toy AEAD with key 9 (round-trip witness). -/
def c3Layer : DefaultRecordLayer :=
  orKeep (NewRecordLayerTLS [] Direction.read)
    ((NewRecordLayerTLS [] Direction.read).Rekey 1 (toyFactory 9) toyKeys)

/-- Stream read layer with an empty transport (every read would-blocks). -/
def c10Layer : DefaultRecordLayer := NewRecordLayerTLS [] Direction.read

/- ### Byte-arithmetic lemmas -/

theorem beVal_append_singleton (l : List Nat) (b : Nat) :
    beVal (l ++ [b]) = beVal l * 256 + b := by
  simp [beVal, List.foldl_append]

theorem beVal_beBytes (n s : Nat) : beVal (beBytes n s) = s % 256 ^ n := by
  induction n generalizing s with
  | zero => simp [beBytes, beVal, Nat.mod_one]
  | succ n ih =>
    rw [beBytes, beVal_append_singleton, ih, pow_succ, mul_comm (256 ^ n) 256, Nat.mod_mul]
    omega

theorem beBytes_length (n s : Nat) : (beBytes n s).length = n := by
  induction n generalizing s with
  | zero => simp [beBytes]
  | succ n ih => simp [beBytes, ih]

/-- Two numbers with equal low `n` bytes agree modulo `256 ^ n`. -/
theorem bytes_eq_mod_eq (n s t : Nat)
    (h : ∀ j < n, (s >>> (8 * j)) % 256 = (t >>> (8 * j)) % 256) :
    s % 256 ^ n = t % 256 ^ n := by
  induction n with
  | zero => simp [Nat.mod_one]
  | succ n ih =>
    have hlow : s % 256 ^ n = t % 256 ^ n := ih fun j hj => h j (Nat.lt_succ_of_lt hj)
    have hbyte : (s >>> (8 * n)) % 256 = (t >>> (8 * n)) % 256 := h n (Nat.lt_succ_self n)
    have hdiv : ∀ u : Nat, u >>> (8 * n) = u / 256 ^ n := by
      intro u
      rw [Nat.shiftRight_eq_div_pow, pow_mul]
      norm_num
    rw [hdiv, hdiv] at hbyte
    rw [pow_succ, Nat.mod_mul, Nat.mod_mul, hlow, hbyte]

/- ### The `computeNonce` loop, characterised positionally -/

theorem getD_set_self (l : List Nat) (i a : Nat) (h : i < l.length) :
    (l.set i a).getD i 0 = a := by
  rw [List.getD_eq_getElem?_getD, List.getElem?_set_eq_of_lt a h]
  rfl

theorem getD_set_ne (l : List Nat) (i m a : Nat) (h : i ≠ m) :
    (l.set i a).getD m 0 = l.getD m 0 := by
  rw [List.getD_eq_getElem?_getD, List.getElem?_set_ne h, List.getD_eq_getElem?_getD]

/-- Positional description of `nonceLoopGo`: starting at loop variable `i`
with `k` iterations left, positions `len - i - k` through `len - i - 1`
receive the XOR of the corresponding low byte of `s`; everything else is
untouched. -/
theorem nonceLoopGo_getD (k : Nat) : ∀ (l : List Nat) (s i m : Nat), i + k ≤ l.length →
    (nonceLoopGo l s i k).getD m 0 =
      if l.length - i - k ≤ m ∧ m < l.length - i then
        l.getD m 0 ^^^ ((s >>> (8 * (l.length - i - 1 - m))) % 256)
      else l.getD m 0 := by
  induction k with
  | zero =>
    intro l s i m hik
    rw [nonceLoopGo]
    have hcond : ¬ (l.length - i - 0 ≤ m ∧ m < l.length - i) := by omega
    rw [if_neg hcond]
  | succ k ih =>
    intro l s i m hik
    rw [nonceLoopGo]
    set j := l.length - i - 1 with hj
    have hjlt : j < l.length := by omega
    set l2 := l.set j (l.getD j 0 ^^^ s % 256) with hl2
    have hl2len : l2.length = l.length := by simp [hl2]
    have hIH := ih l2 (s / 256) (i + 1) m (by omega)
    rw [hl2len] at hIH
    rw [hIH]
    by_cases hm : m = j
    · subst hm
      have hnot : ¬ (l.length - (i + 1) - k ≤ j ∧ j < l.length - (i + 1)) := by omega
      have hyes : l.length - i - (k + 1) ≤ j ∧ j < l.length - i := by omega
      rw [if_neg hnot, if_pos hyes, hl2, getD_set_self l j _ hjlt]
      have hz : l.length - i - 1 - j = 0 := by omega
      rw [hz, Nat.mul_zero, Nat.shiftRight_zero]
    · have hget : l2.getD m 0 = l.getD m 0 := getD_set_ne l j m _ (Ne.symm hm)
      by_cases hr : l.length - (i + 1) - k ≤ m ∧ m < l.length - (i + 1)
      · have hyes : l.length - i - (k + 1) ≤ m ∧ m < l.length - i := by omega
        rw [if_pos hr, if_pos hyes, hget]
        have harith : 8 * (l.length - i - 1 - m) =
            8 + 8 * (l.length - (i + 1) - 1 - m) := by omega
        rw [harith, Nat.shiftRight_add]
        have h256 : s >>> 8 = s / 256 := by
          rw [Nat.shiftRight_eq_div_pow]
        rw [h256]
      · have hno : ¬ (l.length - i - (k + 1) ≤ m ∧ m < l.length - i) := by omega
        rw [if_neg hr, if_neg hno, hget]

/-- C6: `computeNonce` is a pure function of the cipher state's IV and the
sequence argument — states with identical IVs produce identical nonces for
identical sequence numbers — and for a fixed IV of at least 8 bytes, two
distinct sequence values below `2 ^ 64` yield distinct nonces. -/
theorem computeNonce_pure_and_injective (c c' : cipherState) (s s' : Nat)
    (hiv : c.iv = c'.iv) (h8 : 8 ≤ c.iv.length) (hs : s < 2 ^ 64) (hs' : s' < 2 ^ 64) :
    c.computeNonce s = c'.computeNonce s ∧
    (c.computeNonce s = c'.computeNonce s' → s = s') := by
  constructor
  · unfold cipherState.computeNonce
    rw [hiv]
  · intro h
    unfold cipherState.computeNonce at h
    rw [← hiv] at h
    have hbytes : ∀ j < 8, (s >>> (8 * j)) % 256 = (s' >>> (8 * j)) % 256 := by
      intro j hj
      set m := c.iv.length - 1 - j with hm
      have he : (nonceLoopGo c.iv s 0 8).getD m 0 = (nonceLoopGo c.iv s' 0 8).getD m 0 := by rw [h]
      have h1 := nonceLoopGo_getD 8 c.iv s 0 m (by omega)
      have h2 := nonceLoopGo_getD 8 c.iv s' 0 m (by omega)
      have hcond : c.iv.length - 0 - 8 ≤ m ∧ m < c.iv.length - 0 := by omega
      have hexp : c.iv.length - 0 - 1 - m = j := by omega
      rw [h1, h2, if_pos hcond, if_pos hcond, hexp] at he
      have := congrArg (fun t => c.iv.getD m 0 ^^^ t) he.symm
      simpa [Nat.xor_cancel_left] using this.symm
    have hmod := bytes_eq_mod_eq 8 s s' hbytes
    have h64 : (256 : Nat) ^ 8 = 2 ^ 64 := by norm_num
    rw [h64, Nat.mod_eq_of_lt hs, Nat.mod_eq_of_lt hs'] at hmod
    exact hmod

/-- Witness for C6 at the concrete 12-byte-IV cipher state `c6Cs`. -/
theorem computeNonce_pure_and_injective_witness :
    c6Cs.computeNonce 5 = c6Cs.computeNonce 5 ∧
    (c6Cs.computeNonce 5 = c6Cs.computeNonce 5 → 5 = 5) :=
  computeNonce_pure_and_injective c6Cs c6Cs 5 5 rfl (by decide) (by norm_num) (by norm_num)

/-- C4: below the DTLS limit `2 ^ 48 - 1` the sequence counter is advanced by
exactly one; at the limit `incrementSequenceNumber` fails fatally (the Go
panic, modelled as `none`) and no wrapped counter value is ever produced. -/
theorem incrementSequenceNumber_spec (c : cipherState) :
    (c.seq < (1 <<< 48) - 1 →
      c.incrementSequenceNumber = some { c with seq := c.seq + 1 }) ∧
    (c.seq = (1 <<< 48) - 1 → c.incrementSequenceNumber = none) := by
  unfold cipherState.incrementSequenceNumber
  constructor
  · intro h
    rw [if_neg (by omega)]
  · intro h
    rw [if_pos (by omega)]

/-- Witness for C4 at a counter value of 5 and at the limit. -/
theorem incrementSequenceNumber_spec_witness :
    (c4Cs.incrementSequenceNumber = some { c4Cs with seq := c4Cs.seq + 1 }) ∧
    (c4CsMax.incrementSequenceNumber = none) :=
  ⟨(incrementSequenceNumber_spec c4Cs).1 (by decide),
   (incrementSequenceNumber_spec c4CsMax).2 (by decide)⟩

/- ### Padding-scan lemmas -/

/-- On an entirely-zero buffer the padding scan never finds a boundary and
runs off the front of the buffer (the Go out-of-range panic, `none`). -/
theorem padScanGo_all_zero (l : List Nat) (hz : ∀ b ∈ l, b = 0) :
    ∀ fuel k, fuel = l.length + 1 - k → k ≤ l.length → padScanGo l l.length k fuel = none := by
  intro fuel
  induction fuel generalizing hz with
  | zero => omega
  | succ n ih =>
    intro k hf hk
    rw [padScanGo]
    by_cases hkl : k = l.length
    · rw [if_pos (by omega)]
    · rw [if_neg (by omega)]
      have hidx : l.length - k - 1 < l.length := by omega
      have hzero : l.getD (l.length - k - 1) 0 = 0 := by
        rw [List.getD_eq_getElem?_getD, List.getElem?_eq_getElem hidx]
        exact hz _ (List.getElem_mem hidx)
      rw [if_pos hzero]
      exact ih hz (k + 1) (by omega) (by omega)

/-- The scan on an entirely-zero buffer, wrapper form. -/
theorem padScanLoop_all_zero (l : List Nat) (hz : ∀ b ∈ l, b = 0) :
    padScanLoop l l.length 0 = none := by
  unfold padScanLoop
  exact padScanGo_all_zero l hz (l.length + 1 - 0) 0 rfl (by omega)

/-- On a buffer of the shape `fragment ++ [contentType] ++ zero padding` with
a nonzero content type, the scan stops exactly at the padding length. -/
theorem padScanGo_payload (frag : List Nat) (ct : Nat) (hct : ct ≠ 0) (p : Nat) :
    ∀ fuel k, fuel = frag.length + 1 + p + 1 - k → k ≤ p →
      padScanGo (frag ++ ct :: List.replicate p 0) (frag.length + 1 + p) k fuel = some p := by
  intro fuel
  induction fuel with
  | zero => omega
  | succ n ih =>
    intro k hf hk
    rw [padScanGo, if_neg (by omega)]
    by_cases hkp : k = p
    · subst hkp
      have hidx : frag.length + 1 + k - k - 1 = frag.length := by omega
      rw [hidx]
      have hget : (frag ++ ct :: List.replicate k 0).getD frag.length 0 = ct := by
        rw [List.getD_eq_getElem?_getD, List.getElem?_append_right le_rfl]
        simp
      rw [hget, if_neg hct]
    · have hidx : frag.length + 1 + p - k - 1 = frag.length + 1 + (p - k - 1) := by omega
      have hget : (frag ++ ct :: List.replicate p 0).getD (frag.length + 1 + (p - k - 1)) 0 = 0 := by
        rw [List.getD_eq_getElem?_getD, List.getElem?_append_right (by omega)]
        have hsub : frag.length + 1 + (p - k - 1) - frag.length = (p - k - 1) + 1 := by omega
        rw [hsub, List.getElem?_cons_succ, List.getElem?_replicate, if_pos (by omega)]
        rfl
      rw [hidx, hget, if_pos rfl]
      exact ih (k + 1) (by omega) (by omega)

/-- The scan on a well-formed encrypted payload, wrapper form. -/
theorem padScanLoop_payload (frag : List Nat) (ct : Nat) (hct : ct ≠ 0) (p : Nat) :
    padScanLoop (frag ++ ct :: List.replicate p 0) (frag.length + 1 + p) 0 = some p := by
  unfold padScanLoop
  exact padScanGo_payload frag ct hct p (frag.length + 1 + p + 1 - 0) 0 rfl (by omega)

/-- C1 (the code violates the claim): whenever the AEAD open step recovers an
entirely-zero payload, `decrypt` does not return a format/decrypt error — the
padding-boundary scan indexes one byte before the start of the decrypted
buffer, a Go runtime out-of-range panic. -/
theorem decrypt_all_zero_payload_fatal (r : DefaultRecordLayer) (a : AEAD)
    (ha : r.currentCipher.cipher = some a) (seq : Nat) (header : List Nat) (pt : TLSPlaintext)
    (hlen : a.overhead ≤ pt.fragment.length) (plain : List Nat)
    (hopen : a.Open (r.currentCipher.computeNonce seq) pt.fragment header = some plain)
    (hplen : plain.length = pt.fragment.length - a.overhead)
    (hz : ∀ b ∈ plain, b = 0) :
    DefaultRecordLayer.decrypt r seq header pt = .fatal "runtime error: index out of range" := by
  have hov : r.currentCipher.overhead = a.overhead := by
    simp [cipherState.overhead, ha]
  have hbuf : plain.take (pt.fragment.length - a.overhead) ++
      List.replicate (pt.fragment.length - a.overhead - plain.length) 0 = plain := by
    rw [← hplen, List.take_length, Nat.sub_self, List.replicate_zero, List.append_nil]
  have hscan : padScanLoop plain (pt.fragment.length - a.overhead) 0 = none := by
    rw [← hplen]
    exact padScanLoop_all_zero plain hz
  unfold DefaultRecordLayer.decrypt
  simp only [hov, ha, hopen, hbuf, hscan, if_neg (show ¬ pt.fragment.length < a.overhead by omega)]

/-- Witness for C1 at the concrete failing input: a toy-AEAD ciphertext whose
payload decrypts to `[0, 0, 0]`. -/
theorem decrypt_all_zero_payload_fatal_witness :
    DefaultRecordLayer.decrypt c1Layer 0 [23, 3, 1, 0, 4]
      { contentType := 23, epoch := 0, seq := 0, fragment := c1Ciphertext } =
      .fatal "runtime error: index out of range" :=
  decrypt_all_zero_payload_fatal c1Layer (toyAead 7) rfl 0 [23, 3, 1, 0, 4] _
    (by decide) [0, 0, 0] (by decide) (by decide) (by decide)

/-- C3: for every fragment of at most `2 ^ 14` bytes, every recognized
content type, every padding length and every well-formed AEAD, decrypting
the output of `encrypt` under the same cipher state, sequence number and
header recovers exactly the original fragment and content type (with the
stripped padding length reported alongside). -/
theorem encrypt_decrypt_roundtrip (a : AEAD) (hg : AEADGood a) (r : DefaultRecordLayer)
    (ha : r.currentCipher.cipher = some a) (seq : Nat) (header : List Nat)
    (frag : List Nat) (hlen : frag.length ≤ maxFragmentLen) (ct : Nat)
    (hct : ct = RecordTypeAlert ∨ ct = RecordTypeHandshake ∨
           ct = RecordTypeApplicationData ∨ ct = RecordTypeAck)
    (padLen : Nat) (wireCt : Nat) :
    DefaultRecordLayer.decrypt r seq header
      { contentType := wireCt, epoch := 0, seq := 0,
        fragment := DefaultRecordLayer.encrypt r.currentCipher seq header
          { contentType := ct, epoch := 0, seq := 0, fragment := frag } padLen } =
      .ok { contentType := ct, epoch := 0, seq := seq, fragment := frag } padLen := by
  have hct0 : ct ≠ 0 ∧ ct < 256 := by
    rcases hct with h | h | h | h <;> subst h <;> exact ⟨by decide, by decide⟩
  have hmod : ct % 256 = ct := Nat.mod_eq_of_lt hct0.2
  set payload := frag ++ ct :: List.replicate padLen 0 with hpayload
  have henc : DefaultRecordLayer.encrypt r.currentCipher seq header
      { contentType := ct, epoch := 0, seq := 0, fragment := frag } padLen =
      a.Seal (r.currentCipher.computeNonce seq) payload header := by
    simp only [DefaultRecordLayer.encrypt, ha, hmod]
  have hplen : payload.length = frag.length + 1 + padLen := by
    simp [hpayload]
    omega
  have hctlen : (a.Seal (r.currentCipher.computeNonce seq) payload header).length =
      frag.length + 1 + padLen + a.overhead := by
    rw [hg.seal_length, hplen]
  have hov : r.currentCipher.overhead = a.overhead := by
    simp [cipherState.overhead, ha]
  have hopen := hg.open_seal (r.currentCipher.computeNonce seq) payload header
  have hbuf : payload.take (frag.length + 1 + padLen + a.overhead - a.overhead) ++
      List.replicate (frag.length + 1 + padLen + a.overhead - a.overhead - payload.length) 0 =
      payload := by
    rw [Nat.add_sub_cancel, ← hplen, List.take_length, Nat.sub_self, List.replicate_zero,
      List.append_nil]
  have hscan : padScanLoop payload (frag.length + 1 + padLen + a.overhead - a.overhead) 0 =
      some padLen := by
    rw [Nat.add_sub_cancel, hpayload]
    exact padScanLoop_payload frag ct hct0.1 padLen
  have hnew : frag.length + 1 + padLen + a.overhead - a.overhead - padLen - 1 = frag.length := by
    omega
  have hgetct : payload.getD frag.length 0 = ct := by
    rw [hpayload, List.getD_eq_getElem?_getD, List.getElem?_append_right le_rfl]
    simp
  have htakefrag : payload.take frag.length = frag := List.take_left frag _
  rw [henc]
  unfold DefaultRecordLayer.decrypt
  simp only [hov, hctlen, ha, hopen, hbuf, hscan, hnew, hgetct, htakefrag,
    if_neg (show ¬ frag.length + 1 + padLen + a.overhead < a.overhead by omega)]

/-- The toy AEAD satisfies the AEAD contract. -/
theorem toyAead_good (k : Nat) : AEADGood (toyAead k) where
  seal_length := fun nonce pt aad => by simp [toyAead]
  open_seal := fun nonce pt aad => by simp [toyAead]
  open_length := fun nonce ct aad pt h => by
    simp only [toyAead] at h
    by_cases hc : ct.getLast? = some (toyTag k nonce ct.dropLast aad)
    · rw [if_pos hc] at h
      cases h
      have hne : ct ≠ [] := by
        intro hnil
        subst hnil
        simp at hc
      have hpos : 1 ≤ ct.length := List.length_pos.mpr hne
      rw [List.length_dropLast]
      simp only [toyAead]
      omega
    · rw [if_neg hc] at h
      cases h

/-- Witness for C3: a concrete round trip through `c3Layer`'s toy AEAD
(fragment "hi", handshake type, 2 bytes of padding). -/
theorem encrypt_decrypt_roundtrip_witness :
    DefaultRecordLayer.decrypt c3Layer 4 [23, 3, 1, 0, 9]
      { contentType := 23, epoch := 0, seq := 0,
        fragment := DefaultRecordLayer.encrypt c3Layer.currentCipher 4 [23, 3, 1, 0, 9]
          { contentType := RecordTypeHandshake, epoch := 0, seq := 0,
            fragment := [104, 105] } 2 } =
      .ok { contentType := RecordTypeHandshake, epoch := 0, seq := 4,
            fragment := [104, 105] } 2 :=
  encrypt_decrypt_roundtrip (toyAead 9) (toyAead_good 9) c3Layer rfl 4 [23, 3, 1, 0, 9]
    [104, 105] (by decide) RecordTypeHandshake (Or.inr (Or.inl rfl)) 2 23

/-- C9: requesting padding on a cleartext write fails with an error and
leaves the layer state entirely unchanged — nothing is handed to the
transport and no sequence counter advances. -/
theorem write_cleartext_padding_fails (r : DefaultRecordLayer) (pt : TLSPlaintext)
    (padLen : Nat) (hclear : r.currentCipher.cipher = none) (hpad : 0 < padLen) :
    r.writeRecordWithPadding pt padLen =
      (.err "tls.record: Padding can only be done on encrypted records", r) := by
  unfold DefaultRecordLayer.writeRecordWithPadding
  simp only [hclear, Option.isSome_none, Bool.false_eq_true, if_false, gt_iff_lt, hpad, if_true,
    if_pos hpad]

/-- Witness for C9: a padded cleartext write on the concrete layer
`c9Layer`. -/
theorem write_cleartext_padding_fails_witness :
    c9Layer.writeRecordWithPadding c7Record 1 =
      (.err "tls.record: Padding can only be done on encrypted records", c9Layer) :=
  write_cleartext_padding_fails c9Layer c7Record 1 rfl (by decide)

/-- The two length-field bytes recover the length when it is below `2 ^ 16`. -/
theorem lenfield_arith (L : Nat) (hL : L < 65536) : ((L >>> 8) % 256) * 256 + L % 256 = L := by
  rw [Nat.shiftRight_eq_div_pow]
  norm_num
  have hd : L / 256 < 256 := by omega
  rw [Nat.mod_eq_of_lt hd]
  omega

/-- `beBytes 2` in closed form. -/
theorem beBytes_two (L : Nat) : beBytes 2 L = [L / 256 % 256, L % 256] := rfl

/-- Division form of the length-field arithmetic. -/
theorem lenfield_arith_div (L : Nat) (hL : L < 65536) : (L / 256 % 256) * 256 + L % 256 = L := by
  have hd : L / 256 < 256 := by omega
  rw [Nat.mod_eq_of_lt hd]
  omega

/-- The length field of the 13-byte datagram header recovers the length. -/
theorem dtls_lenfield (v0 v1 v2 S L : Nat) (hL : L < 65536) :
    (([v0, v1, v2] ++ beBytes 8 S ++ beBytes 2 L).getD
        (([v0, v1, v2] ++ beBytes 8 S ++ beBytes 2 L).length - 2) 0) * 256 +
      ([v0, v1, v2] ++ beBytes 8 S ++ beBytes 2 L).getD
        (([v0, v1, v2] ++ beBytes 8 S ++ beBytes 2 L).length - 1) 0 = L := by
  have hlen : ([v0, v1, v2] ++ beBytes 8 S ++ beBytes 2 L).length = 13 := by
    simp [beBytes_length]
  have hget : ∀ i, ([v0, v1, v2] ++ beBytes 8 S ++ beBytes 2 L).getD (11 + i) 0 =
      (beBytes 2 L).getD i 0 := by
    intro i
    rw [List.append_assoc, List.getD_eq_getElem?_getD,
      List.getElem?_append_right (show ([v0, v1, v2] : List Nat).length ≤ 11 + i by
        simp only [List.length_cons, List.length_nil]; omega)]
    rw [show 11 + i - ([v0, v1, v2] : List Nat).length = 8 + i by
      simp only [List.length_cons, List.length_nil]; omega]
    rw [List.getElem?_append_right (show (beBytes 8 S).length ≤ 8 + i by
      rw [beBytes_length]; omega)]
    rw [show 8 + i - (beBytes 8 S).length = i by rw [beBytes_length]; omega]
    rw [List.getD_eq_getElem?_getD]
  rw [hlen, show (13 : Nat) - 2 = 11 + 0 by omega, show (13 : Nat) - 1 = 11 + 1 by omega,
    hget 0, hget 1, beBytes_two]
  simp only [List.getD_cons_zero, List.getD_cons_succ]
  exact lenfield_arith_div L hL

/-- C7: on the write path, whenever an AEAD cipher is active the emitted wire
header carries the ApplicationData content type regardless of the record's
true type, and a length field equal to fragment length + 1 + padding + AEAD
overhead; with no cipher active the header carries the record's true type
and the fragment length. -/
theorem write_wire_header (r : DefaultRecordLayer) (pt : TLSPlaintext) (padLen : Nat)
    (hct : pt.contentType < 256) :
    (∀ a, AEADGood a → r.currentCipher.cipher = some a →
      ∀ r2, r.writeRecordWithPadding pt padLen = (.ok, r2) →
      ∃ hdr ctext,
        r2.written = r.written ++ [hdr ++ ctext] ∧
        hdr.getD 0 0 = RecordTypeApplicationData ∧
        (hdr.getD (hdr.length - 2) 0) * 256 + hdr.getD (hdr.length - 1) 0 =
          pt.fragment.length + 1 + padLen + a.overhead) ∧
    (r.currentCipher.cipher = none →
      ∀ r2, r.writeRecordWithPadding pt padLen = (.ok, r2) →
      ∃ hdr ctext,
        r2.written = r.written ++ [hdr ++ ctext] ∧
        hdr.getD 0 0 = pt.contentType ∧
        (hdr.getD (hdr.length - 2) 0) * 256 + hdr.getD (hdr.length - 1) 0 =
          pt.fragment.length) := by
  have hmax : maxFragmentLen = 16384 := by decide
  constructor
  · intro a hg hc r2 h
    have hov : r.currentCipher.overhead = a.overhead := by
      simp [cipherState.overhead, hc]
    have hcl : ∀ (s : Nat) (h' : List Nat),
        (DefaultRecordLayer.encrypt r.currentCipher s h' pt padLen).length =
          pt.fragment.length + 1 + padLen + a.overhead := by
      intro s h'
      simp [DefaultRecordLayer.encrypt, hc, hg.seal_length]
      omega
    unfold DefaultRecordLayer.writeRecordWithPadding at h
    simp only [hc, Option.isSome_some, if_true, hov, hcl] at h
    by_cases hsize : pt.fragment.length + 1 + padLen + a.overhead > maxFragmentLen
    · rw [if_pos hsize] at h
      simp at h
    · rw [if_neg hsize] at h
      have hL : pt.fragment.length + 1 + padLen + a.overhead < 65536 := by omega
      rcases hinc : r.currentCipher.incrementSequenceNumber with _ | sel2
      · rw [hinc] at h
        simp at h
      · rw [hinc] at h
        simp only [Prod.mk.injEq, true_and] at h
        subst h
        refine ⟨_, _, rfl, ?_, ?_⟩
        · by_cases hd : r.datagram
          · simp only [hd, eq_self_iff_true, not_true, if_false, List.cons_append,
              List.getD_cons_zero]
            decide
          · simp only [hd, Bool.false_eq_true, not_false_iff, if_true, List.getD_cons_zero]
            decide
        · by_cases hd : r.datagram
          · simp only [hd, eq_self_iff_true, not_true, if_false]
            exact dtls_lenfield _ _ _ _ _ hL
          · simp only [hd, Bool.false_eq_true, not_false_iff, if_true]
            simp only [List.getD_cons_zero, List.getD_cons_succ, List.length_cons,
              List.length_nil]
            rw [Nat.shiftRight_eq_div_pow]
            norm_num
            exact lenfield_arith_div _ hL
  · intro hc r2 h
    have hmod : pt.contentType % 256 = pt.contentType := Nat.mod_eq_of_lt hct
    unfold DefaultRecordLayer.writeRecordWithPadding at h
    simp only [hc, Option.isSome_none, Bool.false_eq_true, if_false] at h
    by_cases hpad : padLen > 0
    · rw [if_pos hpad] at h
      simp at h
    · rw [if_neg hpad] at h
      dsimp only at h
      by_cases hsize : pt.fragment.length > maxFragmentLen
      · rw [if_pos hsize] at h
        simp at h
      · rw [if_neg hsize] at h
        have hL : pt.fragment.length < 65536 := by omega
        rcases hinc : r.currentCipher.incrementSequenceNumber with _ | sel2
        · rw [hinc] at h
          simp at h
        · rw [hinc] at h
          simp only [Prod.mk.injEq, true_and] at h
          subst h
          refine ⟨_, _, rfl, ?_, ?_⟩
          · by_cases hd : r.datagram
            · simp only [hd, eq_self_iff_true, not_true, if_false, List.cons_append,
                List.getD_cons_zero]
              exact hmod
            · simp only [hd, Bool.false_eq_true, not_false_iff, if_true, List.getD_cons_zero]
              exact hmod
          · by_cases hd : r.datagram
            · simp only [hd, eq_self_iff_true, not_true, if_false]
              exact dtls_lenfield _ _ _ _ _ hL
            · simp only [hd, Bool.false_eq_true, not_false_iff, if_true]
              simp only [List.getD_cons_zero, List.getD_cons_succ, List.length_cons,
                List.length_nil]
              rw [Nat.shiftRight_eq_div_pow]
              norm_num
              exact lenfield_arith_div _ hL

/-- Witness for C7: a concrete encrypted write (toy AEAD, 2 bytes padding)
and a concrete cleartext write. -/
theorem write_wire_header_witness :
    (∃ hdr ctext,
      (c7EncLayer.writeRecordWithPadding c7Record 2).2.written =
        c7EncLayer.written ++ [hdr ++ ctext] ∧
      hdr.getD 0 0 = RecordTypeApplicationData ∧
      (hdr.getD (hdr.length - 2) 0) * 256 + hdr.getD (hdr.length - 1) 0 =
        c7Record.fragment.length + 1 + 2 + (toyAead 5).overhead) ∧
    (∃ hdr ctext,
      (c9Layer.writeRecordWithPadding c7Record 0).2.written =
        c9Layer.written ++ [hdr ++ ctext] ∧
      hdr.getD 0 0 = c7Record.contentType ∧
      (hdr.getD (hdr.length - 2) 0) * 256 + hdr.getD (hdr.length - 1) 0 =
        c7Record.fragment.length) :=
  ⟨(write_wire_header c7EncLayer c7Record 2 (by decide)).1 (toyAead 5) (toyAead_good 5) rfl
      (c7EncLayer.writeRecordWithPadding c7Record 2).2 rfl,
   (write_wire_header c9Layer c7Record 0 (by decide)).2 rfl
      (c9Layer.writeRecordWithPadding c7Record 0).2 rfl⟩

/-- Case analysis for `finishRecord`: it returns a record (then the peek
cache holds exactly that record and the cached error is untouched), an error
(then the state is returned entirely unchanged), or a panic. -/
theorem finishRecord_cases (r : DefaultRecordLayer) (selId seq htype : Nat)
    (fragment header : List Nat) :
    (∃ pt, (r.finishRecord selId seq htype fragment header).1 = .ok pt ∧
      (r.finishRecord selId seq htype fragment header).2.cachedRecord = some pt ∧
      (r.finishRecord selId seq htype fragment header).2.cachedError = r.cachedError) ∨
    ((∃ e, (r.finishRecord selId seq htype fragment header).1 = .err e) ∧
      (r.finishRecord selId seq htype fragment header).2 = r) ∨
    (∃ m, (r.finishRecord selId seq htype fragment header).1 = .fatal m) := by
  simp only [DefaultRecordLayer.finishRecord]
  by_cases hsome : (r.ciphers.getD selId newCipherStateNull).cipher.isSome = true
  · rw [if_pos hsome]
    rcases hd : DefaultRecordLayer.decrypt r seq header
        { contentType := htype, epoch := 0, seq := 0, fragment := fragment } with
      ⟨pt, padLen⟩ | msg | msg
    · dsimp only
      by_cases hbig : pt.fragment.length > maxFragmentLen
      · rw [if_pos hbig]
        exact Or.inr (Or.inl ⟨⟨_, rfl⟩, rfl⟩)
      · rw [if_neg hbig]
        rcases hinc : (r.ciphers.getD selId newCipherStateNull).incrementSequenceNumber with _ | sel2
        · exact Or.inr (Or.inr ⟨_, rfl⟩)
        · exact Or.inl ⟨_, rfl, rfl, rfl⟩
    · exact Or.inr (Or.inl ⟨⟨_, rfl⟩, rfl⟩)
    · exact Or.inr (Or.inr ⟨_, rfl⟩)
  · rw [if_neg hsome]
    dsimp only
    by_cases hbig : fragment.length > maxFragmentLen
    · rw [if_pos hbig]
      exact Or.inr (Or.inl ⟨⟨_, rfl⟩, rfl⟩)
    · rw [if_neg hbig]
      rcases hinc : (r.ciphers.getD selId newCipherStateNull).incrementSequenceNumber with _ | sel2
      · exact Or.inr (Or.inr ⟨_, rfl⟩)
      · exact Or.inl ⟨_, rfl, rfl, rfl⟩

/-- Instantiation of `finishRecord_cases` against arbitrary descriptions of
the pre-state's fields, for use inside the `nextRecord` case analysis. -/
theorem finishRecord_close (rr : DefaultRecordLayer) (selId seq htype : Nat)
    (frag hdr : List Nat) (cs : List cipherState) (cr : Option TLSPlaintext)
    (ce : Option RError) (rc : List (Nat × Nat)) (cid : Nat)
    (hciphers : rr.ciphers = cs) (hcr : rr.cachedRecord = cr) (hce : rr.cachedError = ce)
    (hrc : rr.readCiphers = rc) (hid : rr.cipherId = cid) :
    (∃ pt, (rr.finishRecord selId seq htype frag hdr).1 = .ok pt ∧
      (rr.finishRecord selId seq htype frag hdr).2.cachedRecord = some pt ∧
      (rr.finishRecord selId seq htype frag hdr).2.cachedError = ce) ∨
    ((∃ e, (rr.finishRecord selId seq htype frag hdr).1 = .err e) ∧
      (rr.finishRecord selId seq htype frag hdr).2.ciphers = cs ∧
      (rr.finishRecord selId seq htype frag hdr).2.cachedRecord = cr ∧
      (rr.finishRecord selId seq htype frag hdr).2.cachedError = ce ∧
      (rr.finishRecord selId seq htype frag hdr).2.readCiphers = rc ∧
      (rr.finishRecord selId seq htype frag hdr).2.cipherId = cid) ∨
    (∃ m, (rr.finishRecord selId seq htype frag hdr).1 = .fatal m) := by
  subst hciphers hcr hce hrc hid
  rcases finishRecord_cases rr selId seq htype frag hdr with
    ⟨pt, ha, hb, hc⟩ | ⟨⟨e, ha⟩, hb⟩ | ⟨m, ha⟩
  · exact Or.inl ⟨pt, ha, hb, hc⟩
  · exact Or.inr (Or.inl ⟨⟨e, ha⟩, by rw [hb], by rw [hb], by rw [hb], by rw [hb], by rw [hb]⟩)
  · exact Or.inr (Or.inr ⟨m, ha⟩)

/-- Case analysis for `nextRecord`: it returns a record (then the peek cache
holds exactly that record and the cached error is untouched), an error (then
the cipher heap, the peek cache, the epoch map and the cipher pointer are all
untouched), or a panic. -/
theorem nextRecord_cases (awvn : Bool) (r : DefaultRecordLayer) (allowOldEpoch : Bool) :
    (∃ pt, (DefaultRecordLayer.nextRecord awvn r allowOldEpoch).1 = .ok pt ∧
      (DefaultRecordLayer.nextRecord awvn r allowOldEpoch).2.cachedRecord = some pt ∧
      (DefaultRecordLayer.nextRecord awvn r allowOldEpoch).2.cachedError = r.cachedError) ∨
    ((∃ e, (DefaultRecordLayer.nextRecord awvn r allowOldEpoch).1 = .err e) ∧
      (DefaultRecordLayer.nextRecord awvn r allowOldEpoch).2.ciphers = r.ciphers ∧
      (DefaultRecordLayer.nextRecord awvn r allowOldEpoch).2.cachedRecord = r.cachedRecord ∧
      (DefaultRecordLayer.nextRecord awvn r allowOldEpoch).2.cachedError = r.cachedError ∧
      (DefaultRecordLayer.nextRecord awvn r allowOldEpoch).2.readCiphers = r.readCiphers ∧
      (DefaultRecordLayer.nextRecord awvn r allowOldEpoch).2.cipherId = r.cipherId) ∨
    (∃ m, (DefaultRecordLayer.nextRecord awvn r allowOldEpoch).1 = .fatal m) := by
  simp only [DefaultRecordLayer.nextRecord]
  rcases hcache : r.cachedRecord with _ | pt0
  · rcases hrl : readLoop r.frame r.connRead with ⟨res, fr2, conn2⟩
    rcases res with e0 | hb
    · exact Or.inr (Or.inl ⟨⟨_, rfl⟩, rfl, rfl, rfl, rfl, rfl⟩)
    · rcases hb with ⟨header, body⟩
      dsimp only
      split
      · exact Or.inr (Or.inl ⟨⟨_, rfl⟩, rfl, rfl, rfl, rfl, rfl⟩)
      · split
        · exact Or.inr (Or.inl ⟨⟨_, rfl⟩, rfl, rfl, rfl, rfl, rfl⟩)
        · split
          · exact Or.inr (Or.inl ⟨⟨_, rfl⟩, rfl, rfl, rfl, rfl, rfl⟩)
          · split
            · split
              · exact Or.inr (Or.inl ⟨⟨_, rfl⟩, rfl, rfl, rfl, rfl, rfl⟩)
              · split
                · exact Or.inr (Or.inl ⟨⟨_, rfl⟩, rfl, rfl, rfl, rfl, rfl⟩)
                · exact finishRecord_close _ _ _ _ _ _ _ _ _ _ _ rfl rfl rfl rfl rfl
            · exact finishRecord_close _ _ _ _ _ _ _ _ _ _ _ rfl rfl rfl rfl rfl
  · rcases hce : r.cachedError with _ | e
    · exact Or.inl ⟨pt0, rfl, hcache, rfl⟩
    · exact Or.inr (Or.inl ⟨⟨e, rfl⟩, rfl, hcache, rfl, rfl, rfl⟩)

/-- C10: whenever `nextRecord` returns an error of any kind — would-block,
format, decrypt or transport — the cipher heap (hence every sequence
counter), the cipher pointer, the epoch map and the peek cache are exactly
as before the call. -/
theorem nextRecord_error_no_side_effects (awvn : Bool) (r : DefaultRecordLayer)
    (allowOldEpoch : Bool) (e : RError) (r2 : DefaultRecordLayer)
    (h : DefaultRecordLayer.nextRecord awvn r allowOldEpoch = (.err e, r2)) :
    r2.ciphers = r.ciphers ∧ r2.cachedRecord = r.cachedRecord ∧
    r2.cachedError = r.cachedError ∧ r2.readCiphers = r.readCiphers ∧
    r2.cipherId = r.cipherId := by
  rcases nextRecord_cases awvn r allowOldEpoch with
    ⟨pt, ha, _, _⟩ | ⟨⟨e0, ha⟩, hb, hc, hd, he, hf⟩ | ⟨m, ha⟩
  · rw [h] at ha
    cases ha
  · have h2 : (DefaultRecordLayer.nextRecord awvn r allowOldEpoch).2 = r2 := by rw [h]
    rw [h2] at hb hc hd he hf
    exact ⟨hb, hc, hd, he, hf⟩
  · rw [h] at ha
    cases ha

/-- Witness for C10: a would-blocking read on the empty transport. -/
theorem nextRecord_error_no_side_effects_witness :
    ((DefaultRecordLayer.nextRecord false c10Layer false).2).ciphers = c10Layer.ciphers ∧
    ((DefaultRecordLayer.nextRecord false c10Layer false).2).cachedRecord =
      c10Layer.cachedRecord ∧
    ((DefaultRecordLayer.nextRecord false c10Layer false).2).cachedError =
      c10Layer.cachedError ∧
    ((DefaultRecordLayer.nextRecord false c10Layer false).2).readCiphers =
      c10Layer.readCiphers ∧
    ((DefaultRecordLayer.nextRecord false c10Layer false).2).cipherId = c10Layer.cipherId :=
  nextRecord_error_no_side_effects false c10Layer false .wouldBlock
    (DefaultRecordLayer.nextRecord false c10Layer false).2 rfl

/-- A `nextRecord` call on a state whose peek cache is populated returns the
cached record and leaves the state untouched. -/
theorem nextRecord_cached (awvn : Bool) (r : DefaultRecordLayer) (allowOldEpoch : Bool)
    (pt : TLSPlaintext) (hcr : r.cachedRecord = some pt) (hce : r.cachedError = none) :
    DefaultRecordLayer.nextRecord awvn r allowOldEpoch = (.ok pt, r) := by
  unfold DefaultRecordLayer.nextRecord
  rw [hcr, hce]

/-- C8 (amended): once a peek has returned a content type, peeking again
returns the identical content type and the identical state — in particular
the repeated peek advances no sequence counter.  (The first peek, when it
actually consumes a record from the transport, does advance the decrypting
cipher state's counter as the record enters the peek cache.) -/
theorem peek_idempotent (awvn : Bool) (r : DefaultRecordLayer) (ty : Nat)
    (r1 : DefaultRecordLayer) (hce : r.cachedError = none)
    (h : DefaultRecordLayer.PeekRecordType awvn r = (.ok ty, r1)) :
    DefaultRecordLayer.PeekRecordType awvn r1 = (.ok ty, r1) := by
  unfold DefaultRecordLayer.PeekRecordType at h
  rcases hnr : DefaultRecordLayer.nextRecord awvn r false with ⟨res, r1'⟩
  rw [hnr] at h
  rcases res with pt | e | m
  · simp only [Prod.mk.injEq] at h
    obtain ⟨hty, hr1⟩ := h
    subst hr1
    have hcached : r1'.cachedRecord = some pt ∧ r1'.cachedError = none := by
      rcases nextRecord_cases awvn r false with
        ⟨pt2, ha, hb, hc⟩ | ⟨⟨e0, ha⟩, _⟩ | ⟨m, ha⟩
      · rw [hnr] at ha hb hc
        cases ha
        exact ⟨hb, hc.trans hce⟩
      · rw [hnr] at ha
        cases ha
      · rw [hnr] at ha
        cases ha
    unfold DefaultRecordLayer.PeekRecordType
    rw [nextRecord_cached awvn r1' false pt hcached.1 hcached.2]
    dsimp only
    rw [hty]
  · cases h
  · cases h

/-- Counterexample for C8 as frozen: both peeks return the identical content
type, but the pair of peeks does advance a sequence counter — the first peek
consumes the record from the transport and increments the cleartext cipher
state's counter from 0 to 1. -/
theorem peek_advances_counter_counterexample :
    (DefaultRecordLayer.PeekRecordType false c8Layer).1 = .ok 22 ∧
    (DefaultRecordLayer.PeekRecordType false
      ((DefaultRecordLayer.PeekRecordType false c8Layer).2)).1 = .ok 22 ∧
    c8Layer.currentCipher.seq = 0 ∧
    ((DefaultRecordLayer.PeekRecordType false
      ((DefaultRecordLayer.PeekRecordType false c8Layer).2)).2).currentCipher.seq = 1 := by
  decide

/-- Witness for the amended C8 at the concrete layer `c8Layer`. -/
theorem peek_idempotent_witness :
    DefaultRecordLayer.PeekRecordType false
      ((DefaultRecordLayer.PeekRecordType false c8Layer).2) =
      (.ok 22, (DefaultRecordLayer.PeekRecordType false c8Layer).2) :=
  peek_idempotent false c8Layer 22 (DefaultRecordLayer.PeekRecordType false c8Layer).2 rfl rfl

/-- Counterexample for C5 as frozen: with the configured version set to
0x0303 via `SetVersion` and an incoming header carrying exactly those
version bytes (3, 3), the read is rejected with the version format error,
although the header's version equals the configured one. -/
theorem version_check_counterexample :
    (c5LayerOf 0x0303 3 3).version = 0x0303 ∧
    (DefaultRecordLayer.nextRecord false (c5LayerOf 0x0303 3 3) false).1 =
      .err (.formatError "tls.record: Invalid version") := by
  decide

/-- C5 (amended): unless version checking is globally disabled, the read
path rejects a header exactly when its version bytes differ from the fixed
pair (3, 1); the configured version plays no role, and a header with
version bytes (3, 1) is never rejected for its version. -/
theorem version_check_fixed (v b1 b2 : Nat) (hb1 : b1 < 256) (hb2 : b2 < 256) :
    (DefaultRecordLayer.nextRecord false (c5LayerOf v b1 b2) false).1 =
      if b1 = 3 ∧ b2 = 1 then
        .ok { contentType := 22, epoch := 0, seq := 0, fragment := [99] }
      else .err (.formatError "tls.record: Invalid version") := by
  have hb1' : b1 % 256 = b1 := Nat.mod_eq_of_lt hb1
  have hb2' : b2 % 256 = b2 := Nat.mod_eq_of_lt hb2
  by_cases hb : b1 = 3 ∧ b2 = 1
  · obtain ⟨h1, h2⟩ := hb
    subst h1
    subst h2
    rw [if_pos ⟨rfl, rfl⟩]
    simp only [c5LayerOf, NewRecordLayerTLS, DefaultRecordLayer.SetVersion, newFrameReader]
    unfold DefaultRecordLayer.nextRecord
    norm_num [readLoop, frameReader.needed, frameReader.addChunk, frameReader.process,
      recordLayerFrameDetails.headerLen, recordLayerFrameDetails.frameLen, recordHeaderLenTLS,
      List.getD_cons_zero, List.getD_cons_succ, maxFragmentLen, RecordTypeAlert,
      RecordTypeHandshake, RecordTypeApplicationData, RecordTypeAck,
      DefaultRecordLayer.finishRecord, DefaultRecordLayer.currentCipher,
      newCipherStateNull, cipherState.incrementSequenceNumber]
    rw [if_neg (show ¬ (1 <<< 14 : Nat) = 0 by decide),
      if_neg (show ¬ (1 <<< 48 : Nat) - 1 = 0 by decide)]
  · rw [if_neg hb]
    simp only [c5LayerOf, NewRecordLayerTLS, DefaultRecordLayer.SetVersion, newFrameReader]
    unfold DefaultRecordLayer.nextRecord
    norm_num [readLoop, frameReader.needed, frameReader.addChunk, frameReader.process,
      recordLayerFrameDetails.headerLen, recordLayerFrameDetails.frameLen, recordHeaderLenTLS,
      hb1', hb2', List.getD_cons_zero, List.getD_cons_succ, maxFragmentLen, RecordTypeAlert,
      RecordTypeHandshake, RecordTypeApplicationData, RecordTypeAck, hb]

/-- Witness for the amended C5 at matching version bytes (3, 1) and a
configured version of 0x0303. -/
theorem version_check_fixed_witness :
    (DefaultRecordLayer.nextRecord false (c5LayerOf 0x0303 3 1) false).1 =
      if 3 = 3 ∧ 1 = 1 then
        .ok { contentType := 22, epoch := 0, seq := 0, fragment := [99] }
      else .err (.formatError "tls.record: Invalid version") :=
  version_check_fixed 0x0303 3 1 (by decide) (by decide)

/-- C2 (the code violates the claim): the epoch-1 datagram pending in
`c2Reader` is rejected with would-block by `ReadRecord` (as the claim says),
but `ReadRecordAnyEpoch` does not return the decrypted record — `decrypt`
uses the layer's current (epoch-2) cipher state instead of the selected
epoch-1 state, so the AEAD open fails.  The third conjunct shows the
datagram itself is well-formed: a reader still keyed to epoch 1 decrypts it
successfully. -/
theorem read_any_epoch_old_epoch_bug :
    (DefaultRecordLayer.ReadRecord true c2Reader).1 = .err .wouldBlock ∧
    (DefaultRecordLayer.ReadRecordAnyEpoch true c2Reader).1 =
      .err (.decryptError "tls.record.decrypt: AEAD decrypt failed") ∧
    (DefaultRecordLayer.ReadRecord true c2ReaderEpoch1).1 =
      .ok { contentType := RecordTypeHandshake, epoch := 1, seq := 1 <<< 48,
            fragment := [104, 105] } := by
  refine ⟨by decide, by decide, by decide⟩
